import Mathlib

/-!
# DevSketch — verification of the multi-tier sync / code-generation pipeline

Shallow embedding of the DevSketch repository's generation pipeline and
persistence logic:

* `src/lib/ai.ts` — `sketchToCode`, `cleanCodeOutput`, `generateDesignToken`;
* `src/app/api/generate/route.ts` — the `POST` handler's non-streaming and
  streaming response construction;
* `src/components/Canvas.tsx` — `generateUUID`, the shape `uiHint`
  annotation in `generateCode`, the client-side stream consumption loop,
  `saveToSupabase`, the realtime-update callback, and the `fetchData`
  initial-load flow;
* `src/lib/store/editor-store.ts` — `updateSupabaseCode`.

JavaScript strings are modelled as `List Char` (JS `substring`/`length`
operate on code units, which slicing on `List Char` reproduces for the
inputs considered here).  Numeric geometry fields are modelled as `Int`.
Network effects (model calls, database reads/writes, stream writes) are
modelled as explicit action traces returned next to the computed value, and
every fallible external call is an explicit parameter of the embedding.
-/

namespace DevSketch

/-- JS truthiness of an optional numeric field (`undefined`, `0` falsy). -/
def numTruthy : Option Int → Bool
  | none => false
  | some v => v != 0

/-- JS truthiness of an optional string field (`undefined`, `""` falsy). -/
def strTruthy : Option (List Char) → Bool
  | none => false
  | some s => !s.isEmpty

/-- Naive substring containment over char lists (models JS `includes`). -/
def containsSeq (pat : List Char) : List Char → Bool
  | [] => pat.isEmpty
  | c :: rest => pat.isPrefixOf (c :: rest) || containsSeq pat rest

/-- Models JS `String.prototype.startsWith`. -/
def startsWithSeq (pat s : List Char) : Bool := pat.isPrefixOf s

/-- JS whitespace test for the characters relevant here. -/
def isJsWs (c : Char) : Bool := c = ' ' || c = '\n' || c = '\t' || c = '\r'

/-- Models JS `String.prototype.trim`. -/
def jsTrim (s : List Char) : List Char :=
  ((s.dropWhile isJsWs).reverse.dropWhile isJsWs).reverse

/-! ## Shapes and the `uiHint` annotation (Canvas.tsx, `generateCode`) -/

/-- The UI-role hints the orchestrator can attach to a shape. -/
inductive UiHint
  | button | card | input | container | heading | label | paragraph | icon | divider
  deriving DecidableEq, Repr

/-- Excalidraw element type tags distinguished by the annotation code. -/
inductive ShapeKind
  | rectangle | text | ellipse | line | other
  deriving DecidableEq, Repr

/-- A drawing shape, restricted to the fields the annotation logic reads. -/
structure Shape where
  kind : ShapeKind
  width : Int := 0
  height : Int := 0
  fontSize : Option Int := none
  text : Option (List Char) := none
  deriving DecidableEq, Repr

/-- The `uiHint` computed for one element by the pre-processing `map` in
`generateCode` (Canvas.tsx).  The source assigns `container` first and then
lets each later size check overwrite the previous assignment; shapes of
other types receive no hint. -/
def uiHintOf (e : Shape) : Option UiHint :=
  match e.kind with
  | .rectangle =>
    let h1 := UiHint.container
    let h2 := if e.width < 200 ∧ e.height < 100 then UiHint.button else h1
    let h3 := if e.width > 200 ∧ e.height > 200 then UiHint.card else h2
    let h4 := if e.width > 150 ∧ e.height < 60 then UiHint.input else h3
    some h4
  | .text =>
    if numTruthy e.fontSize = true ∧ e.fontSize.getD 0 > 20 then some .heading
    else if strTruthy e.text = true ∧ (e.text.getD []).length < 20 then some .label
    else some .paragraph
  | .ellipse =>
    some (if e.width < 50 ∧ e.height < 50 then UiHint.icon else UiHint.button)
  | .line => some .divider
  | .other => none

/-- The rectangle rule exactly as the specification sentence lists it, read
in the order stated there: small rectangle → button; large → card;
wide-but-short → input; otherwise container. -/
def claimRectHint (w h : Int) : UiHint :=
  if w < 200 ∧ h < 100 then .button
  else if w > 200 ∧ h > 200 then .card
  else if w > 150 ∧ h < 60 then .input
  else .container

/-- The rectangle rule with the source's effective precedence made explicit:
the later checks overwrite the earlier ones, so `input` wins over `button`
on the overlap `150 < w < 200 ∧ h < 60`. -/
def amendedRectHint (w h : Int) : UiHint :=
  if w > 150 ∧ h < 60 then .input
  else if w > 200 ∧ h > 200 then .card
  else if w < 200 ∧ h < 100 then .button
  else .container

/-- The full annotation rule as amended: rectangles via `amendedRectHint`,
text via present-`fontSize` > 20 → heading, else nonempty text shorter than
20 chars → label, else paragraph; small ellipses → icon, other ellipses →
button; lines → divider. -/
def amendedUiHint (e : Shape) : Option UiHint :=
  match e.kind with
  | .rectangle => some (amendedRectHint e.width e.height)
  | .text =>
    if numTruthy e.fontSize = true ∧ e.fontSize.getD 0 > 20 then some .heading
    else if strTruthy e.text = true ∧ (e.text.getD []).length < 20 then some .label
    else some .paragraph
  | .ellipse =>
    some (if e.width < 50 ∧ e.height < 50 then UiHint.icon else UiHint.button)
  | .line => some .divider
  | .other => none

/-- The concrete rectangle of end-to-end scenario B. -/
def rect60x30 : Shape := { kind := .rectangle, width := 60, height := 30 }

/-- A rectangle that is simultaneously "below the small width/height
thresholds" and "wide-but-short". -/
def rect180x50 : Shape := { kind := .rectangle, width := 180, height := 50 }

/-! ## String utilities used by `cleanCodeOutput` (ai.ts) -/

/-- First index at which `pat` occurs in `s` (models JS `indexOf`). -/
def idxOfSeq (pat : List Char) : List Char → Option Nat
  | [] => if pat.isEmpty then some 0 else none
  | c :: rest =>
    if pat.isPrefixOf (c :: rest) then some 0
    else (idxOfSeq pat rest).map (· + 1)

/-- Last index at which `pat` occurs in `s` (models JS `lastIndexOf`). -/
def lastIdxOfSeq (pat s : List Char) : Option Nat :=
  ((List.range (s.length + 1)).filter (fun i => pat.isPrefixOf (s.drop i))).getLast?

/-- Models JS `split('\n')`. -/
def splitLines : List Char → List (List Char)
  | [] => [[]]
  | c :: rest =>
    if c = '\n' then [] :: splitLines rest
    else
      match splitLines rest with
      | [] => [[c]]
      | l :: ls => (c :: l) :: ls

/-- Models JS `join('\n')`. -/
def joinNl : List (List Char) → List Char
  | [] => []
  | [l] => l
  | l :: ls => l ++ '\n' :: joinNl ls

/-- The three-backtick code-fence marker. -/
def backtickFence : List Char := "```".toList

/-- Length matched by the optional language tag of the fence regex
`(jsx?|tsx?|javascript|react)?`, alternatives tried in the regex's order
with the greedy optional `x`. -/
def fenceTagLen (s : List Char) : Nat :=
  if startsWithSeq ("jsx".toList) s then 3
  else if startsWithSeq ("js".toList) s then 2
  else if startsWithSeq ("tsx".toList) s then 3
  else if startsWithSeq ("ts".toList) s then 2
  else if startsWithSeq ("javascript".toList) s then 10
  else if startsWithSeq ("react".toList) s then 5
  else 0

/-- One global-replace pass deleting every code fence, with (`useTag = true`)
or without its optional language tag — models the two `replace` calls in
`cleanCodeOutput`. -/
def stripFences (useTag : Bool) (s : List Char) : List Char :=
  match s with
  | [] => []
  | c :: rest =>
    if startsWithSeq backtickFence (c :: rest) then
      stripFences useTag ((rest.drop 2).drop (if useTag then fenceTagLen (rest.drop 2) else 0))
    else c :: stripFences useTag rest
termination_by s.length
decreasing_by
  · simp only [List.length_drop, List.length_cons]; omega
  · simp only [List.length_cons]; omega

/-- The `'import '` needle of `cleanCodeOutput`. -/
def importKw : List Char := "import ".toList

/-- The `'export '` needle of `cleanCodeOutput`. -/
def exportKw : List Char := "export ".toList

/-- Index of the first line containing both `'export '` and `';'` — the
`break` condition of the line scan in `cleanCodeOutput`. -/
def findExportCut : List (List Char) → Option Nat
  | [] => none
  | l :: ls =>
    if containsSeq exportKw l && containsSeq (";".toList) l then some 0
    else (findExportCut ls).map (· + 1)

/-- `cleanCodeOutput` from ai.ts: drop markdown fences, cut leading text
before the first `import `, cut trailing text after the last `export `
statement line, and trim. -/
def cleanCodeOutput (rawOutput : List Char) : List Char :=
  let code0 := stripFences true rawOutput
  let code1 := stripFences false code0
  let code2 :=
    if containsSeq importKw code1 then
      match idxOfSeq importKw code1 with
      | some firstImportIndex =>
        if firstImportIndex > 0 then code1.drop firstImportIndex else code1
      | none => code1
    else code1
  let code3 :=
    if containsSeq exportKw code2 then
      match lastIdxOfSeq exportKw code2 with
      | some lastExportIndex =>
        let lines := splitLines (code2.drop lastExportIndex)
        match findExportCut lines with
        | some i => code2.take (lastExportIndex + (joinNl (lines.take (i + 1))).length)
        | none => code2
      | none => code2
    else code2
  jsTrim code3

/-! ## UUID generation (Canvas.tsx `generateUUID`, ai.ts `generateDesignToken`)

The two functions are textually identical.  The `Math.random()` draws are
modelled by a draw function per loop index: positions built with
`Math.floor(Math.random() * 16)` take a `Fin 16` draw, the variant position
built with `Math.floor(Math.random() * 4) + 8` takes a `Fin 4` draw. -/

/-- The `hexDigits` table of the generators. -/
def hexDigits : List Char := "0123456789abcdef".toList

/-- The character appended at loop index `i` by the generator. -/
def uuidChar (hexDraw : Nat → Fin 16) (variantDraw : Fin 4) (i : Nat) : Char :=
  if i = 8 ∨ i = 13 ∨ i = 18 ∨ i = 23 then '-'
  else if i = 14 then '4'
  else if i = 19 then hexDigits.getD ((variantDraw : Nat) + 8) ' '
  else hexDigits.getD (hexDraw i) ' '

/-- `generateUUID` from Canvas.tsx: 36 loop iterations, each appending one
character. -/
def generateUUID (hexDraw : Nat → Fin 16) (variantDraw : Fin 4) : List Char :=
  (List.range 36).map (uuidChar hexDraw variantDraw)

/-- `generateDesignToken` from ai.ts — character-for-character the same
algorithm as `generateUUID`. -/
def generateDesignToken : (Nat → Fin 16) → Fin 4 → List Char := generateUUID

/-! ## `sketchToCode` (ai.ts) -/

/-- The outcomes of the two upstream model calls and the rate limiter, plus
the random draws consumed by `generateDesignToken`.  `Except Unit` content:
`.error` is a thrown request (network failure / timeout), `.ok` is the
returned message content (possibly blank). -/
structure AiEnv where
  rateLimitOk : Bool
  gpt35 : Except Unit (List Char)
  gpt4omini : Except Unit (List Char)
  hexDraw : Nat → Fin 16
  variantDraw : Fin 4

/-- The `sketchData` argument: `notArray` covers `null`, `undefined` and
non-array values; `arr` an element array (possibly empty). -/
inductive SketchInput
  | notArray
  | arr (shapes : List Shape)
  deriving DecidableEq

/-- Network requests `sketchToCode` can issue. -/
inductive AiAction
  | callGpt35
  | callGpt4oMini
  deriving DecidableEq, Repr

/-- The result object of `sketchToCode` (the `debug` field, console-only
diagnostics, is omitted). -/
structure SketchToCodeOutput where
  code : List Char
  error : Option (List Char) := none
  designToken : List Char
  deriving DecidableEq, Repr

/-- Error string for empty/invalid sketch data. -/
def emptySketchMsg : List Char :=
  "Error: Empty sketch data. Please add elements to your drawing before generating code.".toList

/-- Error string when the rate limiter denies the request. -/
def rateLimitMsg : List Char :=
  "Rate limit exceeded. Please try again in a minute.".toList

/-- Error string when the fallback model returns blank content. -/
def simplerSketchMsg : List Char :=
  "Failed to generate code. Please try again with a simpler sketch.".toList

/-- Error string of the last-resort branch. -/
def multiAttemptMsg : List Char :=
  "Failed to generate code after multiple attempts. Returning a basic template.".toList

/-- Body of the react branch of the `basicTemplate` template literal. -/
def reactTemplateBody : List Char :=
  ("\nimport React from 'react';\n\nexport default function GeneratedComponent() \x7b\n  return (\n    <div className=\"container mx-auto p-4\">\n      <h1 className=\"text-2xl font-bold mb-4\">Generated Component</h1>\n      <p>The sketch could not be properly converted to code.</p>\n      <p>Please try again with a simpler sketch.</p>\n    </div>\n  );\n\x7d").toList

/-- The fabricated last-resort template of `sketchToCode`'s final catch. -/
def basicTemplate (framework css : List Char) : List Char :=
  ("// Basic ".toList) ++ framework ++ (" component with ".toList) ++ css ++ ("\n".toList)
  ++ (if framework = "react".toList then reactTemplateBody
      else ("// Fallback code for ".toList) ++ framework)

/-- The fallback path of `sketchToCode`: entered when the GPT-3.5 request
threw or returned blank content (the blank case throws and is caught by the
same handler).  Tries GPT-4o-mini; blank content yields an error result,
a thrown request the fabricated template plus error. -/
def sketchToCodeFallback (env : AiEnv) (framework css designToken : List Char) :
    SketchToCodeOutput × List AiAction :=
  match env.gpt4omini with
  | .ok content =>
    if jsTrim content = [] then
      ({ code := [], error := some simplerSketchMsg, designToken }, [.callGpt35, .callGpt4oMini])
    else
      ({ code := cleanCodeOutput content, designToken }, [.callGpt35, .callGpt4oMini])
  | .error _ =>
    ({ code := basicTemplate framework css, error := some multiAttemptMsg, designToken },
     [.callGpt35, .callGpt4oMini])

/-- `sketchToCode` from ai.ts, returning its result together with the list
of upstream model requests it issued.  Validation and the rate-limit check
run before any request; the GPT-3.5 attempt comes first; blank or thrown
GPT-3.5 responses fall back to GPT-4o-mini. -/
def sketchToCode (env : AiEnv) (framework css : List Char) (sketchData : SketchInput) :
    SketchToCodeOutput × List AiAction :=
  let designToken := generateDesignToken env.hexDraw env.variantDraw
  match sketchData with
  | .notArray => ({ code := [], error := some emptySketchMsg, designToken }, [])
  | .arr shapes =>
    if shapes.isEmpty then
      ({ code := [], error := some emptySketchMsg, designToken }, [])
    else if env.rateLimitOk = false then
      ({ code := [], error := some rateLimitMsg, designToken }, [])
    else
      match env.gpt35 with
      | .ok content =>
        if jsTrim content = [] then sketchToCodeFallback env framework css designToken
        else ({ code := cleanCodeOutput content, designToken }, [.callGpt35])
      | .error _ => sketchToCodeFallback env framework css designToken

/-- The empty-sketch guard at the top of `generateCode` (Canvas.tsx): with
no elements the handler shows a toast and returns before building a request;
`some` is the abort toast, `none` means generation proceeds. -/
def generateCodePreflight (sketchElements : List Shape) : Option (List Char) :=
  if sketchElements.isEmpty then
    some (("No elements to generate code from. Draw something first!").toList)
  else none

/-! ## The generate route (`POST`, first revision in `src/unnamed/part_004`)

Each streamed line is one JSON message; the embedding types them. -/

/-- The newline-delimited JSON messages the route can write. -/
inductive StreamMsg
  | start
  | token (designToken : List Char)
  | codeChunk (code : List Char) (isLast : Bool) (chunkIndex totalChunks : Nat)
  | errorMsg (e : List Char)
  | successMsg
  deriving DecidableEq, Repr

/-- The code fragment written at loop index `i`:
`code.substring(i*500, Math.min((i+1)*500, code.length))`, tagged with its
ordinal, the total count and the last-fragment flag. -/
def chunkAt (code : List Char) (chunks i : Nat) : StreamMsg :=
  .codeChunk ((code.drop (i * 500)).take (min ((i + 1) * 500) code.length - i * 500))
    (decide (i = chunks - 1)) i chunks

/-- The sequence of code-fragment messages the route writes for `code`:
one fragment when `code.length ≤ 1000`, else `Math.ceil(length/500)`
fragments of chunk size 500. -/
def codeChunkMsgs (code : List Char) : List StreamMsg :=
  if code.length > 1000 then
    (List.range ((code.length + 499) / 500)).map (chunkAt code ((code.length + 499) / 500))
  else [.codeChunk code true 0 1]

/-- The `message: 'token'` write guarded by `if (result.designToken)`. -/
def tokenMsgs (r : SketchToCodeOutput) : List StreamMsg :=
  if r.designToken.isEmpty then [] else [.token r.designToken]

/-- Error text of the route's 25-second streaming timeout handler. -/
def streamTimeoutMsg : List Char :=
  "Generation timed out. Please try again with a simpler sketch or try the non-streaming option.".toList

/-- Error text when the AI returned a result with blank code. -/
def noCodeMsg : List Char :=
  "No code was generated. The sketch may not contain recognizable UI elements.".toList

/-- `Error generating code: ${message}` of the route's catch block. -/
def genError (m : List Char) : List Char := ("Error generating code: ".toList) ++ m

/-- How the `sketchToCode` promise settles relative to the route's
25-second timer: a result or a rejection, each either before the timer
fired (`afterTimeout = false`) or after it. -/
inductive AiOutcome
  | resolved (result : SketchToCodeOutput) (afterTimeout : Bool)
  | rejected (m : List Char) (afterTimeout : Bool)

/-- The route's stream writer: written messages in order plus the closed
flag; `write` on a closed writer throws and is swallowed by
`writeToStream`'s catch, so it is modelled as a dropped message. -/
structure WriterState where
  msgs : List StreamMsg
  closed : Bool
  deriving DecidableEq, Repr

/-- `writeToStream`: append unless the writer is already closed. -/
def wWrite (m : StreamMsg) (st : WriterState) : WriterState :=
  if st.closed then st else { st with msgs := st.msgs ++ [m] }

/-- `writer.close()` (idempotent here; a second close throws and is
swallowed). -/
def wClose (st : WriterState) : WriterState := { st with closed := true }

/-- The streaming branch of the route's `POST`: start marker, the request
design id token when present, then — unless the timer fired first — the
result's token and either an error message or the code fragments plus a
success marker; the writer is closed in the `finally` block on every path
(on the timeout path it was already closed by the timer callback). -/
def routeStream (reqDesignId : Option (List Char)) (outcome : AiOutcome) : WriterState :=
  let st0 : WriterState := { msgs := [], closed := false }
  let st1 := wWrite .start st0
  let st2 := match reqDesignId with
    | some t => wWrite (.token t) st1
    | none => st1
  match outcome with
  | .resolved r afterTimeout =>
    if afterTimeout then
      -- timer: error write + close; the late continuation hits the
      -- `hasTimedOut` guard and only runs the finally close
      wClose (wClose (wWrite (.errorMsg streamTimeoutMsg) st2))
    else
      wClose
        (if r.error.isSome then
          wWrite (.errorMsg (r.error.getD [])) ((tokenMsgs r).foldl (fun st m => wWrite m st) st2)
        else if r.code = [] ∨ jsTrim r.code = [] then
          wWrite (.errorMsg noCodeMsg) ((tokenMsgs r).foldl (fun st m => wWrite m st) st2)
        else
          wWrite .successMsg
            ((codeChunkMsgs r.code).foldl (fun st m => wWrite m st)
              ((tokenMsgs r).foldl (fun st m => wWrite m st) st2)))
  | .rejected m afterTimeout =>
    if afterTimeout then
      -- timer already wrote the error and closed the writer; the catch's
      -- later error write is dropped on the closed writer
      wClose (wClose (wWrite (.errorMsg streamTimeoutMsg) st2))
    else
      wClose (wWrite (.errorMsg (genError m)) st2)

/-- The single JSON body of the route's non-streaming branch on a resolved
result: `code: result.code || ''`, `designToken: result.designToken ||
fallbackToken`, `error: result.error || null`, `success: !result.error`. -/
structure JsonResponse where
  code : List Char
  designToken : List Char
  error : Option (List Char)
  success : Bool
  deriving DecidableEq, Repr

/-- Non-streaming response body built from a `sketchToCode` result (the
fallback token is `requestDesignId || generateErrorToken()`). -/
def nonStreamingBody (result : SketchToCodeOutput) (fallbackToken : List Char) : JsonResponse :=
  { code := result.code
    designToken := if result.designToken.isEmpty then fallbackToken else result.designToken
    error := result.error
    success := result.error.isNone }

/-! ## Client-side stream consumption (`generateCode`, Canvas.tsx) -/

/-- The client loop's accumulator: concatenated code, the completion flag,
and the last received design token. -/
structure ClientStreamState where
  code : List Char
  codeComplete : Bool
  designToken : Option (List Char)
  deriving DecidableEq, Repr

/-- One parsed line of the stream, as consumed by `generateCode`'s reader
loop.  An `error` message makes the loop throw, but the throw lands in the
enclosing per-line JSON catch which only logs it, so state is unchanged; a
fragment with a falsy (empty) `code` field is skipped entirely; `isLast`
or a `success` message set the completion flag. -/
def clientStep (st : ClientStreamState) (m : StreamMsg) : ClientStreamState :=
  match m with
  | .start => st
  | .errorMsg _ => st
  | .token t => if t.isEmpty then st else { st with designToken := some t }
  | .codeChunk c isLast _ _ =>
    if c.isEmpty then st
    else if isLast then { st with code := st.code ++ c, codeComplete := true }
    else { st with code := st.code ++ c }
  | .successMsg => { st with codeComplete := true }

/-- Result of one streaming attempt: after the reader reports `done`, a
stream never marked complete sets `streamingFailed` and the attempt throws
(`Failed to read streaming response`); otherwise the accumulated code is
the generated code. -/
inductive ClientStreamResult
  | completed (code : List Char)
  | failed
  deriving DecidableEq, Repr

/-- The initial accumulator of the reader loop. -/
def clientStreamInit : ClientStreamState :=
  { code := [], codeComplete := false, designToken := none }

/-- The whole reader loop followed by the completion check. -/
def clientProcessStream (msgs : List StreamMsg) : ClientStreamResult :=
  let st := msgs.foldl clientStep clientStreamInit
  if st.codeComplete then .completed st.code else .failed

/-- A message carrying the last-fragment flag. -/
def isLastFlag : StreamMsg → Bool
  | .codeChunk _ l _ _ => l
  | _ => false

/-- The terminal success marker. -/
def isSuccessMsg : StreamMsg → Bool
  | .successMsg => true
  | _ => false

/-- A `message: 'token'` line. -/
def isTokenMsg : StreamMsg → Bool
  | .token _ => true
  | _ => false

/-! ## Well-formedness of an emitted stream (C10's invariant) -/

/-- Checks a fragment run: fragments with `chunkIndex` ascending from `i`,
`totalChunks = total` on each, `isLast` exactly at `total - 1`, and the
single success marker right after the last fragment. -/
def checkFrags (total : Nat) (i : Nat) : List StreamMsg → Bool
  | [StreamMsg.successMsg] => i == total
  | .codeChunk _ isLast idx tc :: rest =>
    decide (i < total) && idx == i && tc == total &&
      (isLast == decide (i = total - 1)) && checkFrags total (i + 1) rest
  | _ => false

/-- The token message written for the request's design id, when present. -/
def reqTokList : Option (List Char) → List StreamMsg
  | some t => [.token t]
  | none => []

/-- The messages the streaming branch writes after the start marker and
the request-id token, by outcome (see `routeStream`). -/
def routeBody : AiOutcome → List StreamMsg
  | .resolved _ true => [.errorMsg streamTimeoutMsg]
  | .rejected _ true => [.errorMsg streamTimeoutMsg]
  | .rejected m false => [.errorMsg (genError m)]
  | .resolved r false =>
    if r.error.isSome then tokenMsgs r ++ [.errorMsg (r.error.getD [])]
    else if r.code = [] ∨ jsTrim r.code = [] then tokenMsgs r ++ [.errorMsg noCodeMsg]
    else tokenMsgs r ++ (codeChunkMsgs r.code ++ [.successMsg])

/-- The claimed server-side stream shape: a start marker first, then all
token announcements, then either exactly one error message or the full
ascending fragment run followed by one success marker. -/
def streamShapeOk (msgs : List StreamMsg) : Bool :=
  match msgs with
  | .start :: rest =>
    match rest.dropWhile isTokenMsg with
    | [.errorMsg _] => true
    | .codeChunk c l idx tc :: body => checkFrags tc 0 (.codeChunk c l idx tc :: body)
    | _ => false
  | _ => false

/-! ## Echo suppression and the save flag (Canvas.tsx, C6) -/

/-- The component/store state read and written by the realtime callback and
`saveToSupabase`: the `isSaving` ref plus the shared element and code
state. -/
structure CanvasState where
  saving : Bool
  elements : List Shape
  storeElements : List Shape
  storeCode : List Char
  deriving DecidableEq, Repr

/-- The realtime `postgres_changes` UPDATE callback: applies the payload's
`excalidraw_data` to the local and shared element state only when
`isSaving.current` is false. -/
def onRemoteUpdate (st : CanvasState) (payloadElements : List Shape) : CanvasState :=
  if st.saving = false then
    { st with elements := payloadElements, storeElements := payloadElements }
  else st

/-- Primitive steps `saveToSupabase` performs, in order. -/
inductive SaveAction
  | setSavingFlag (b : Bool)
  | localSave
  deriving DecidableEq, Repr

/-- The `local-` synthetic-identifier marker. -/
def localMarker : List Char := "local-".toList

/-- `saveToSupabase` from Canvas.tsx: early return when ids are missing or
a save is in flight; `local-` design ids only write local storage; the main
path sets `isSaving.current`, saves (the catch saves locally again if the
body threw) and clears the flag in `finally`. -/
def saveToSupabase (userId designId : Option (List Char)) (st : CanvasState)
    (bodyThrows : Bool) : CanvasState × List SaveAction :=
  if userId.isNone ∨ designId.isNone ∨ st.saving = true then (st, [])
  else if startsWithSeq localMarker (designId.getD []) then (st, [.localSave])
  else
    ({ st with saving := false },
     if bodyThrows then
       [.setSavingFlag true, .localSave, .localSave, .setSavingFlag false]
     else
       [.setSavingFlag true, .localSave, .setSavingFlag false])

/-! ## `updateSupabaseCode` (editor-store.ts, C7) -/

/-- The slice of the Zustand store the code-save path reads. -/
structure StoreState where
  designId : Option (List Char)
  userId : Option (List Char)
  code : List Char
  deriving DecidableEq, Repr

/-- Persistence steps `updateSupabaseCode` performs. -/
inductive PersistAction
  | localSetCode (key value : List Char)
  | remoteUpdateCode (id code : List Char)
  deriving DecidableEq, Repr

/-- `localStorage` key `last_generated_code`. -/
def lastGeneratedCodeKey : List Char := "last_generated_code".toList

/-- `localStorage` key `code_${designId}`. -/
def codeKeyFor (designId : List Char) : List Char := ("code_".toList) ++ designId

/-- `updateSupabaseCode` from editor-store.ts, with the outcomes of its up
to three remote update attempts supplied as `(ok1, ok2, ok3)`.  With both
`designId` and `userId` present it mirrors to local storage, updates the
store, and attempts remote updates until one succeeds — with no check of
the `local-` prefix.  With either id missing it only updates the store and
local storage. -/
def updateSupabaseCode (attempts : Bool × Bool × Bool) (st : StoreState)
    (code : List Char) : StoreState × List PersistAction :=
  let safeCode := code
  match st.designId, st.userId with
  | some designId, some _ =>
    let localActs := [PersistAction.localSetCode (codeKeyFor designId) safeCode,
                      PersistAction.localSetCode lastGeneratedCodeKey safeCode]
    let remoteActs :=
      if attempts.1 then [PersistAction.remoteUpdateCode designId code]
      else if attempts.2.1 then
        [PersistAction.remoteUpdateCode designId code,
         PersistAction.remoteUpdateCode designId code]
      else
        [PersistAction.remoteUpdateCode designId code,
         PersistAction.remoteUpdateCode designId code,
         PersistAction.remoteUpdateCode designId code]
    ({ st with code := safeCode }, localActs ++ remoteActs)
  | _, _ =>
    ({ st with code := safeCode },
     PersistAction.localSetCode lastGeneratedCodeKey safeCode ::
       (match st.designId with
        | some d => [PersistAction.localSetCode (codeKeyFor d) safeCode]
        | none => []))

/-- A remote write attempt. -/
def isRemoteWrite : PersistAction → Bool
  | .remoteUpdateCode _ _ => true
  | _ => false

/-! ## Initial load (`fetchData`, Canvas.tsx, C8) -/

/-- A PostgREST error as surfaced by `.single()`; `PGRST116` is the
no-rows code. -/
structure PgError where
  code : List Char
  deriving DecidableEq, Repr

/-- The `designs` row columns `fetchData` selects. -/
structure DesignRow where
  id : List Char
  excalidrawData : Option (List Shape)
  sessionId : Option (List Char)
  deriving DecidableEq, Repr

/-- Outcomes of the external calls `fetchData` can make. -/
structure FetchEnv where
  sessionOk : Bool
  hasSession : Bool
  authOk : Bool
  hasUser : Bool
  specificLoad : Except PgError DesignRow
  latestLoad : Except PgError DesignRow
  insertRes : Except PgError (List Char)

/-- The remote operations and the local fallback `fetchData` can perform
(`localFallback` is `createLocalDesign`, which loads the local snapshot via
`loadFromLocalStorage`). -/
inductive FetchAction
  | queryDesignById (id : List Char)
  | queryLatestForUser
  | insertDesign
  | localFallback
  deriving DecidableEq, Repr

/-- Where `fetchData` ends up. -/
inductive FetchOutcome
  | authFailed
  | localDesign
  | loadedDesign (id : List Char)
  | createdDesign (id : List Char)
  | waitingForUrl
  deriving DecidableEq, Repr

/-- The PostgREST no-rows error code. -/
def pgrst116 : List Char := "PGRST116".toList

/-- The tail of `fetchData` after the specific-design block fell through:
query the most recent design for the user (tolerating only the no-rows
error), and insert a new design when none with data exists; any other
database error is caught by the `dbError` handler, which falls back to
`createLocalDesign`. -/
def fetchLatestFlow (env : FetchEnv) (acts : List FetchAction) :
    FetchOutcome × List FetchAction :=
  match env.latestLoad with
  | .error e =>
    if e.code ≠ pgrst116 then
      (.localDesign, acts ++ [.queryLatestForUser, .localFallback])
    else
      match env.insertRes with
      | .ok newId => (.createdDesign newId, acts ++ [.queryLatestForUser, .insertDesign])
      | .error _ =>
        (.localDesign, acts ++ [.queryLatestForUser, .insertDesign, .localFallback])
  | .ok row =>
    match row.excalidrawData with
    | some _ => (.loadedDesign row.id, acts ++ [.queryLatestForUser])
    | none =>
      match env.insertRes with
      | .ok newId => (.createdDesign newId, acts ++ [.queryLatestForUser, .insertDesign])
      | .error _ =>
        (.localDesign, acts ++ [.queryLatestForUser, .insertDesign, .localFallback])

/-- `fetchData` from Canvas.tsx: auth checks (missing session/user fall
back to a local design), then — with a URL design id — the specific-design
load whose error of any kind is caught by the `dbError` handler and falls
back to `createLocalDesign`; a row without drawing data falls through to
`fetchLatestFlow`; with no URL id the component waits for the draw page. -/
def fetchData (urlDesignId : Option (List Char)) (env : FetchEnv) :
    FetchOutcome × List FetchAction :=
  if env.sessionOk = false then (.authFailed, [])
  else if env.hasSession = false then (.localDesign, [.localFallback])
  else if env.authOk = false then (.authFailed, [])
  else if env.hasUser = false then (.localDesign, [.localFallback])
  else
    match urlDesignId with
    | some id =>
      (match env.specificLoad with
       | .error _ => (.localDesign, [.queryDesignById id, .localFallback])
       | .ok row =>
         match row.excalidrawData with
         | some _ => (.loadedDesign row.id, [.queryDesignById id])
         | none => fetchLatestFlow env [.queryDesignById id])
    | none => (.waitingForUrl, [])

/-! ## The canonical v4 UUID layout (C9's regex) -/

/-- A lowercase hexadecimal digit. -/
def isHexLowerDigit (c : Char) : Bool :=
  ('0' ≤ c && c ≤ '9') || ('a' ≤ c && c ≤ 'f')

/-- Position-wise content of
`^[0-9a-f]{8}-[0-9a-f]{4}-4[0-9a-f]{3}-[89ab][0-9a-f]{3}-[0-9a-f]{12}$`:
hyphens at indices 8, 13, 18, 23, the version nibble `'4'` at index 14,
the variant nibble at index 19, hex everywhere else. -/
def uuidPosOk (i : Nat) (c : Char) : Bool :=
  if i = 8 ∨ i = 13 ∨ i = 18 ∨ i = 23 then c == '-'
  else if i = 14 then c == '4'
  else if i = 19 then c == '8' || c == '9' || c == 'a' || c == 'b'
  else isHexLowerDigit c

/-- The full 36-character layout check equivalent to the claim's regex. -/
def matchesUuidV4 (s : List Char) : Bool :=
  (s.length == 36) && (List.range 36).all (fun i => uuidPosOk i (s.getD i ' '))

/-! ## Concrete inputs for witnesses and counterexamples -/

/-- A fixed random-draw stream (all zero). -/
def exampleHexDraw : Nat → Fin 16 := fun _ => 0

/-- An environment in which both upstream model requests throw. -/
def exampleEnv : AiEnv :=
  { rateLimitOk := true, gpt35 := Except.error (), gpt4omini := Except.error (),
    hexDraw := exampleHexDraw, variantDraw := 0 }

/-- The framework identifier sent by the client. -/
def reactFw : List Char := "react".toList

/-- The css identifier sent by the client. -/
def tailwindCss : List Char := "tailwind".toList

/-- A concrete successful generation result. -/
def exampleResult : SketchToCodeOutput :=
  { code := "abc".toList, error := none, designToken := "tok-1".toList }

/-- A concrete stream that ends without a last-fragment flag or success
marker. -/
def truncatedStreamEx : List StreamMsg :=
  [.start, .token ("tok-1".toList), .codeChunk ("part".toList) false 0 2]

/-- A concrete state with a save in flight. -/
def savingStateEx : CanvasState :=
  { saving := true, elements := [], storeElements := [], storeCode := [] }

/-- A concrete idle state. -/
def idleStateEx : CanvasState :=
  { saving := false, elements := [rect60x30], storeElements := [rect60x30], storeCode := [] }

/-- A synthetic local design identifier. -/
def localIdEx : List Char := "local-abc".toList

/-- A store state pointing at a local design with an authenticated user. -/
def localStoreEx : StoreState :=
  { designId := some localIdEx, userId := some ("user-1".toList), code := [] }

/-- A connection-style database error (not the no-rows code). -/
def connErrorEx : PgError := { code := "ECONNREFUSED".toList }

/-- An environment whose specific-design load throws a connection error. -/
def fetchEnvEx : FetchEnv :=
  { sessionOk := true, hasSession := true, authOk := true, hasUser := true,
    specificLoad := Except.error connErrorEx,
    latestLoad := Except.error connErrorEx,
    insertRes := Except.error connErrorEx }

/-! ## Helper lemmas -/

lemma hexDigits_getD_hex (d : Fin 16) :
    isHexLowerDigit (hexDigits.getD (d : Nat) ' ') = true := by
  revert d; decide

lemma hexDigits_getD_variant (v : Fin 4) :
    (hexDigits.getD ((v : Nat) + 8) ' ' == '8' || hexDigits.getD ((v : Nat) + 8) ' ' == '9' ||
     hexDigits.getD ((v : Nat) + 8) ' ' == 'a' || hexDigits.getD ((v : Nat) + 8) ' ' == 'b')
      = true := by
  revert v; decide

lemma uuidChar_ok (hexDraw : Nat → Fin 16) (variantDraw : Fin 4) (i : Nat) :
    uuidPosOk i (uuidChar hexDraw variantDraw i) = true := by
  unfold uuidPosOk uuidChar
  split_ifs with h1 h2 h3
  · simp
  · simp
  · exact hexDigits_getD_variant variantDraw
  · exact hexDigits_getD_hex (hexDraw i)

lemma getD_map_range (f : Nat → Char) (n i : Nat) (hi : i < n) :
    ((List.range n).map f).getD i ' ' = f i := by
  rw [List.getD_eq_getElem?_getD, List.getElem?_map, List.getElem?_range hi]
  rfl

lemma clientStep_preserves_incomplete (st : ClientStreamState) (m : StreamMsg)
    (hst : st.codeComplete = false)
    (hm : isLastFlag m = false ∧ isSuccessMsg m = false) :
    (clientStep st m).codeComplete = false := by
  rcases m with _ | t | ⟨c, l, idx, tc⟩ | e | _ <;>
    simp_all [clientStep, isLastFlag, isSuccessMsg] <;> split_ifs <;> simp_all

lemma foldl_clientStep_incomplete (msgs : List StreamMsg) (st : ClientStreamState)
    (hst : st.codeComplete = false)
    (hm : ∀ m ∈ msgs, isLastFlag m = false ∧ isSuccessMsg m = false) :
    (msgs.foldl clientStep st).codeComplete = false := by
  induction msgs generalizing st with
  | nil => exact hst
  | cons m rest ih =>
    exact ih _ (clientStep_preserves_incomplete st m hst (hm m (List.mem_cons_self m rest)))
      (fun x hx => hm x (List.mem_cons_of_mem m hx))

/-! ## Claim theorems -/

/-- C4 (counterexample): the claim's rectangle rules, read in their stated
order, annotate a 180×50 rectangle — which is below both small thresholds
— as a button, but the orchestrator annotates it `input`. -/
theorem c4_uihint_counterexample :
    claimRectHint 180 50 = UiHint.button ∧
    uiHintOf rect180x50 = some UiHint.input ∧
    some (claimRectHint rect180x50.width rect180x50.height) ≠ uiHintOf rect180x50 := by
  decide

/-- C4 (amended): the annotation follows the spec's geometric rules with
the source's precedence — a wide-but-short rectangle is `input` even when
it is also below the small width/height thresholds, a large rectangle is
`card`, a remaining small rectangle `button`, any other rectangle
`container`; a text shape with a present font size above 20 is `heading`,
otherwise nonempty text shorter than 20 characters is `label`, else
`paragraph`; an ellipse below the 50×50 size threshold is `icon`, else
`button`; a line is `divider`.  In particular a 60×30 rectangle is
annotated `button`. -/
theorem c4_uihint_amended :
    (∀ e : Shape, uiHintOf e = amendedUiHint e) ∧
    uiHintOf rect60x30 = some UiHint.button := by
  refine ⟨?_, by decide⟩
  intro e
  rcases e with ⟨k, w, h, fs, tx⟩
  cases k <;> rfl

/-- C9: for every possible sequence of random draws, both the Canvas
session-id generator and the ai.ts design-token generator produce a string
matching the canonical hyphenated v4 UUID layout with the version nibble
fixed to `4` and the variant nibble in `{8,9,a,b}`. -/
theorem c9_uuid_format (hexDraw : Nat → Fin 16) (variantDraw : Fin 4) :
    matchesUuidV4 (generateUUID hexDraw variantDraw) = true ∧
    matchesUuidV4 (generateDesignToken hexDraw variantDraw) = true := by
  have hmain : matchesUuidV4 (generateUUID hexDraw variantDraw) = true := by
    unfold matchesUuidV4 generateUUID
    rw [Bool.and_eq_true]
    refine ⟨by simp, ?_⟩
    rw [List.all_eq_true]
    intro i hi
    have hi36 : i < 36 := List.mem_range.mp hi
    rw [getD_map_range _ _ _ hi36]
    exact uuidChar_ok hexDraw variantDraw i
  exact ⟨hmain, hmain⟩

/-- C2: for every empty shape sequence (null/non-array or length zero),
`sketchToCode` returns empty code with the empty-sketch error — whose text
mentions the sketch — issues no upstream model request, and the Canvas
empty-sketch guard aborts generation before any request is built. -/
theorem c2_empty_sketch (env : AiEnv) (framework css : List Char) (input : SketchInput)
    (h : input = SketchInput.notArray ∨ input = SketchInput.arr []) :
    (sketchToCode env framework css input).1.code = [] ∧
    (sketchToCode env framework css input).1.error = some emptySketchMsg ∧
    (sketchToCode env framework css input).2 = [] ∧
    containsSeq ("sketch".toList) emptySketchMsg = true ∧
    generateCodePreflight [] ≠ none := by
  rcases h with h | h <;> subst h <;> exact ⟨rfl, rfl, rfl, by decide, by decide⟩

/-- C2 witness: the empty element array. -/
theorem c2_empty_sketch_witness :
    (sketchToCode exampleEnv reactFw tailwindCss (SketchInput.arr [])).1.code = [] ∧
    (sketchToCode exampleEnv reactFw tailwindCss (SketchInput.arr [])).1.error
      = some emptySketchMsg ∧
    (sketchToCode exampleEnv reactFw tailwindCss (SketchInput.arr [])).2 = [] ∧
    containsSeq ("sketch".toList) emptySketchMsg = true ∧
    generateCodePreflight [] ≠ none :=
  c2_empty_sketch exampleEnv reactFw tailwindCss (SketchInput.arr []) (Or.inr rfl)

/-- C5: any stream that ends without a fragment carrying the last-fragment
flag and without a terminal success marker leaves the completion flag
unset, so the client treats the whole streaming attempt as failed instead
of accepting the partial code. -/
theorem c5_truncated_stream_fails (msgs : List StreamMsg)
    (h : ∀ m ∈ msgs, isLastFlag m = false ∧ isSuccessMsg m = false) :
    clientProcessStream msgs = ClientStreamResult.failed := by
  unfold clientProcessStream
  simp only [foldl_clientStep_incomplete msgs clientStreamInit rfl h]
  rfl

/-- C5 witness: a stream with a start marker, a token and one non-final
fragment. -/
theorem c5_truncated_stream_fails_witness :
    clientProcessStream truncatedStreamEx = ClientStreamResult.failed :=
  c5_truncated_stream_fails truncatedStreamEx (by decide)

/-- C6: a remote-update notification arriving while `isSaving` is set
leaves the local and shared state untouched; and `saveToSupabase` leaves
the flag as it found it on every path — its trace is either empty, a bare
local save (synthetic ids), or a flag-set, save steps, flag-clear bracket
whose interior is only save steps, so the flag is set for the duration of
the save and cleared on success and failure alike. -/
theorem c6_echo_suppression :
    (∀ (st : CanvasState) (p : List Shape), st.saving = true → onRemoteUpdate st p = st) ∧
    (∀ (userId designId : Option (List Char)) (st : CanvasState) (bodyThrows : Bool),
      ((saveToSupabase userId designId st bodyThrows).1).saving = st.saving ∧
      ((saveToSupabase userId designId st bodyThrows).2 = [] ∨
       (saveToSupabase userId designId st bodyThrows).2 = [SaveAction.localSave] ∨
       ∃ mid, (saveToSupabase userId designId st bodyThrows).2 =
           SaveAction.setSavingFlag true :: (mid ++ [SaveAction.setSavingFlag false]) ∧
         ∀ a ∈ mid, a = SaveAction.localSave)) := by
  constructor
  · intro st p hs
    simp [onRemoteUpdate, hs]
  · intro userId designId st bodyThrows
    unfold saveToSupabase
    split_ifs with h1 h2 h3
    · exact ⟨rfl, Or.inl rfl⟩
    · exact ⟨rfl, Or.inr (Or.inl rfl)⟩
    · have hsv : st.saving = false := by
        simp only [not_or] at h1
        simpa using h1.2.2
      exact ⟨by simp [hsv],
        Or.inr (Or.inr ⟨[SaveAction.localSave, SaveAction.localSave], rfl, by decide⟩)⟩
    · have hsv : st.saving = false := by
        simp only [not_or] at h1
        simpa using h1.2.2
      exact ⟨by simp [hsv], Or.inr (Or.inr ⟨[SaveAction.localSave], rfl, by decide⟩)⟩

/-- C6 witness: a notification during a save, and one idle save. -/
theorem c6_echo_suppression_witness :
    onRemoteUpdate savingStateEx [rect60x30] = savingStateEx ∧
    ((saveToSupabase (some ("user-1".toList)) (some localIdEx) idleStateEx false).1).saving
      = idleStateEx.saving :=
  ⟨c6_echo_suppression.1 savingStateEx [rect60x30] rfl,
   (c6_echo_suppression.2 (some ("user-1".toList)) (some localIdEx) idleStateEx false).1⟩

/-- C7 (counterexample): with an authenticated user, a code save through
the store's `updateSupabaseCode` attempts a remote write even though the
design id carries the synthetic `local-` prefix. -/
theorem c7_local_only_counterexample :
    startsWithSeq localMarker localIdEx = true ∧
    (updateSupabaseCode (true, true, true) localStoreEx ("x".toList)).2.any isRemoteWrite
      = true := by
  decide

/-- C7 (amended): element saves through Canvas's `saveToSupabase` honor
the `local-` prefix and only write local storage; but the store's code
save `updateSupabaseCode` performs no prefix check and attempts a remote
write whenever both a design id and a user id are present — including for
`local-` ids. -/
theorem c7_local_only_amended :
    (∀ (uid did : List Char) (st : CanvasState) (bodyThrows : Bool),
      st.saving = false → startsWithSeq localMarker did = true →
      (saveToSupabase (some uid) (some did) st bodyThrows).2 = [SaveAction.localSave]) ∧
    (∀ (attempts : Bool × Bool × Bool) (did uid code : List Char) (st : StoreState),
      st.designId = some did → st.userId = some uid →
      (updateSupabaseCode attempts st code).2.any isRemoteWrite = true) := by
  constructor
  · intro uid did st bodyThrows hsv hloc
    simp [saveToSupabase, hsv, hloc]
  · intro attempts did uid code st h1 h2
    unfold updateSupabaseCode
    rw [h1, h2]
    rcases attempts with ⟨a1, a2, a3⟩
    cases a1 <;> cases a2 <;> simp [isRemoteWrite]

/-- C7 witness: a local-prefixed design with an authenticated user. -/
theorem c7_local_only_witness :
    (saveToSupabase (some ("user-1".toList)) (some localIdEx) idleStateEx false).2
      = [SaveAction.localSave] ∧
    (updateSupabaseCode (true, true, true) localStoreEx ("x".toList)).2.any isRemoteWrite
      = true :=
  ⟨c7_local_only_amended.1 ("user-1".toList) localIdEx idleStateEx false rfl (by decide),
   c7_local_only_amended.2 (true, true, true) localIdEx ("user-1".toList) ("x".toList)
     localStoreEx rfl rfl⟩

lemma basicTemplate_ne_nil (framework css : List Char) :
    basicTemplate framework css ≠ [] := by
  have hlen : 0 < (basicTemplate framework css).length := by
    unfold basicTemplate
    simp only [List.length_append]
    have h9 : ("// Basic ".toList).length = 9 := by decide
    omega
  intro hc
  rw [hc] at hlen
  exact absurd hlen (by simp)

lemma sketchToCodeFallback_shape (env : AiEnv) (framework css designToken : List Char) :
    (sketchToCodeFallback env framework css designToken).1.error = none ∨
    ((sketchToCodeFallback env framework css designToken).1.code = [] ∧
      ∃ e, (sketchToCodeFallback env framework css designToken).1.error = some e ∧ e ≠ []) ∨
    ((sketchToCodeFallback env framework css designToken).1.code
        = basicTemplate framework css ∧
      ∃ e, (sketchToCodeFallback env framework css designToken).1.error = some e ∧ e ≠ []) := by
  unfold sketchToCodeFallback
  cases h4 : env.gpt4omini with
  | ok content =>
    by_cases htr : jsTrim content = []
    · right; left
      refine ⟨by simp [htr], simplerSketchMsg, by simp [htr], by decide⟩
    · left
      simp [htr]
  | error e =>
    right; right
    exact ⟨rfl, multiAttemptMsg, rfl, by decide⟩

set_option maxRecDepth 4000 in
/-- C1 (counterexample): when both upstream model requests throw, the
result of `sketchToCode` for a non-empty sketch is neither "non-empty code
with no error" nor "empty code with a non-empty error": it is the
fabricated basic template together with an error. -/
theorem c1_result_shape_counterexample :
    ¬(((sketchToCode exampleEnv reactFw tailwindCss (SketchInput.arr [rect60x30])).1.code ≠ [] ∧
       (sketchToCode exampleEnv reactFw tailwindCss (SketchInput.arr [rect60x30])).1.error
         = none) ∨
      ((sketchToCode exampleEnv reactFw tailwindCss (SketchInput.arr [rect60x30])).1.code = [] ∧
       (sketchToCode exampleEnv reactFw tailwindCss (SketchInput.arr [rect60x30])).1.error
         ≠ none)) ∧
    (sketchToCode exampleEnv reactFw tailwindCss (SketchInput.arr [rect60x30])).1.code =
      basicTemplate reactFw tailwindCss := by
  decide

/-- C1 (amended): for every non-empty shape sequence the result of
`sketchToCode` has one of three shapes — a cleaned generation with no
error (whose code may itself be empty when the model content was only
fence markup), empty code with a non-empty error, or — when both upstream
attempts throw — the non-empty fabricated basic template together with a
non-empty error. -/
theorem c1_result_shape_amended (env : AiEnv) (framework css : List Char)
    (shapes : List Shape) (h : shapes ≠ []) :
    (sketchToCode env framework css (SketchInput.arr shapes)).1.error = none ∨
    ((sketchToCode env framework css (SketchInput.arr shapes)).1.code = [] ∧
      ∃ e, (sketchToCode env framework css (SketchInput.arr shapes)).1.error
        = some e ∧ e ≠ []) ∨
    ((sketchToCode env framework css (SketchInput.arr shapes)).1.code
        = basicTemplate framework css ∧
      basicTemplate framework css ≠ [] ∧
      ∃ e, (sketchToCode env framework css (SketchInput.arr shapes)).1.error
        = some e ∧ e ≠ []) := by
  have hne : shapes.isEmpty = false := by
    cases shapes with
    | nil => exact absurd rfl h
    | cons a l => rfl
  have hfb := sketchToCodeFallback_shape env framework css
    (generateDesignToken env.hexDraw env.variantDraw)
  unfold sketchToCode
  simp only [hne]
  by_cases hrl : env.rateLimitOk = false
  · right; left
    refine ⟨by simp [hrl], rateLimitMsg, by simp [hrl], by decide⟩
  · cases h35 : env.gpt35 with
    | ok content =>
      by_cases htr : jsTrim content = []
      · rcases hfb with h' | h' | h' <;> simp only [hrl, htr, if_neg, if_pos, Bool.false_eq_true,
          not_false_eq_true, ite_false, ite_true]
        · exact Or.inl (by simpa using h')
        · exact Or.inr (Or.inl (by simpa using h'))
        · exact Or.inr (Or.inr ⟨h'.1, basicTemplate_ne_nil framework css, h'.2⟩)
      · left
        simp [hrl, htr]
    | error e =>
      rcases hfb with h' | h' | h' <;> simp only [hrl, Bool.false_eq_true, not_false_eq_true,
        ite_false]
      · exact Or.inl (by simpa using h')
      · exact Or.inr (Or.inl (by simpa using h'))
      · exact Or.inr (Or.inr ⟨h'.1, basicTemplate_ne_nil framework css, h'.2⟩)

/-- C1 witness: a one-rectangle sketch in the environment where both model
requests throw. -/
theorem c1_result_shape_witness :
    (sketchToCode exampleEnv reactFw tailwindCss (SketchInput.arr [rect60x30])).1.error
      = none ∨
    ((sketchToCode exampleEnv reactFw tailwindCss (SketchInput.arr [rect60x30])).1.code = [] ∧
      ∃ e, (sketchToCode exampleEnv reactFw tailwindCss
        (SketchInput.arr [rect60x30])).1.error = some e ∧ e ≠ []) ∨
    ((sketchToCode exampleEnv reactFw tailwindCss (SketchInput.arr [rect60x30])).1.code
        = basicTemplate reactFw tailwindCss ∧
      basicTemplate reactFw tailwindCss ≠ [] ∧
      ∃ e, (sketchToCode exampleEnv reactFw tailwindCss
        (SketchInput.arr [rect60x30])).1.error = some e ∧ e ≠ []) :=
  c1_result_shape_amended exampleEnv reactFw tailwindCss [rect60x30] (by decide)

/-- C8: with an authenticated session, an error of any kind thrown by the
specific-design load makes `fetchData` fall back to the local design path
(`createLocalDesign`, which loads the local snapshot) without inserting a
remote design; and a remote design is inserted only after the
latest-design query returned the normal no-rows negative result — either
the `PGRST116` error code or a row with no drawing data. -/
theorem c8_notfound_vs_unavailable :
    (∀ (env : FetchEnv) (id : List Char) (e : PgError),
      env.sessionOk = true → env.hasSession = true → env.authOk = true →
      env.hasUser = true → env.specificLoad = Except.error e →
      (fetchData (some id) env).1 = FetchOutcome.localDesign ∧
      FetchAction.localFallback ∈ (fetchData (some id) env).2 ∧
      FetchAction.insertDesign ∉ (fetchData (some id) env).2) ∧
    (∀ (url : Option (List Char)) (env : FetchEnv),
      FetchAction.insertDesign ∈ (fetchData url env).2 →
      (∃ e, env.latestLoad = Except.error e ∧ e.code = pgrst116) ∨
      (∃ row, env.latestLoad = Except.ok row ∧ row.excalidrawData = none)) := by
  constructor
  · intro env id e h1 h2 h3 h4 h5
    refine ⟨?_, ?_, ?_⟩ <;> simp [fetchData, h1, h2, h3, h4, h5]
  · intro url env hmem
    obtain ⟨so, hs, ao, hu, sl, ll, ir⟩ := env
    cases so
    · simp [fetchData] at hmem
    · cases hs
      · simp [fetchData] at hmem
      · cases ao
        · simp [fetchData] at hmem
        · cases hu
          · simp [fetchData] at hmem
          · cases url with
            | none => simp [fetchData] at hmem
            | some id =>
              rcases sl with e | ⟨rid, rdata, rsess⟩
              · simp [fetchData] at hmem
              · cases rdata with
                | some d => simp [fetchData] at hmem
                | none =>
                  rcases ll with e2 | ⟨rid2, rdata2, rsess2⟩
                  · by_cases hcode : e2.code = pgrst116
                    · exact Or.inl ⟨e2, rfl, hcode⟩
                    · simp [fetchData, fetchLatestFlow, hcode] at hmem
                  · cases rdata2 with
                    | some d2 => simp [fetchData, fetchLatestFlow] at hmem
                    | none => exact Or.inr ⟨⟨rid2, none, rsess2⟩, rfl, rfl⟩

/-- C8 witness: a connection error on the specific-design load. -/
theorem c8_notfound_vs_unavailable_witness :
    (fetchData (some ("d-1".toList)) fetchEnvEx).1 = FetchOutcome.localDesign ∧
    FetchAction.localFallback ∈ (fetchData (some ("d-1".toList)) fetchEnvEx).2 ∧
    FetchAction.insertDesign ∉ (fetchData (some ("d-1".toList)) fetchEnvEx).2 :=
  c8_notfound_vs_unavailable.1 fetchEnvEx ("d-1".toList) connErrorEx rfl rfl rfl rfl rfl

lemma take_min_length (xs : List Char) (n : Nat) :
    xs.take (min n xs.length) = xs.take n := by
  rcases le_total n xs.length with h | h
  · rw [min_eq_left h]
  · rw [min_eq_right h, List.take_length, List.take_of_length_le h]

lemma chunkAt_code (code : List Char) (chunks i : Nat) :
    chunkAt code chunks i =
      StreamMsg.codeChunk ((code.drop (i * 500)).take 500) (decide (i = chunks - 1)) i chunks := by
  unfold chunkAt
  have h2 : min ((i + 1) * 500) code.length - i * 500
      = min 500 (code.length - i * 500) := by
    have h1 : (i + 1) * 500 = i * 500 + 500 := by ring
    omega
  rw [h2, ← List.length_drop, take_min_length]

lemma chunk_payload_ne_nil (code : List Char) (s chunks : Nat)
    (hlast : (chunks - 1) * 500 < code.length) (hs : s < chunks) :
    (code.drop (s * 500)).take 500 ≠ [] := by
  have hslt : s * 500 < code.length := by
    have h2 : s * 500 ≤ (chunks - 1) * 500 := Nat.mul_le_mul_right _ (by omega)
    omega
  intro hcontra
  rcases List.take_eq_nil_iff.mp hcontra with h | h
  · omega
  · have := List.drop_eq_nil_iff.mp h
    omega

lemma clientStep_chunk_nonempty (st : ClientStreamState) (c : List Char) (l : Bool)
    (i t : Nat) (hc : c ≠ []) :
    clientStep st (StreamMsg.codeChunk c l i t) =
      { st with code := st.code ++ c, codeComplete := st.codeComplete || l } := by
  have hce : c.isEmpty = false := by
    cases c with
    | nil => exact absurd rfl hc
    | cons a as => rfl
  cases l <;> simp [clientStep, hce]

lemma foldl_chunks_code (code : List Char) (chunks : Nat)
    (hlast : (chunks - 1) * 500 < code.length)
    (hcover : code.length ≤ chunks * 500) :
    ∀ (n s : Nat), s + n = chunks → ∀ st : ClientStreamState,
      (((List.range' s n).map (chunkAt code chunks)).foldl clientStep st).code
        = st.code ++ code.drop (s * 500) := by
  intro n
  induction n with
  | zero =>
    intro s hs st
    have hdrop : code.drop (s * 500) = [] := List.drop_of_length_le (by omega)
    simp [hdrop]
  | succ n ih =>
    intro s hs st
    rw [List.range'_succ, List.map_cons, List.foldl_cons, chunkAt_code,
      clientStep_chunk_nonempty _ _ _ _ _
        (chunk_payload_ne_nil code s chunks hlast (by omega)),
      ih (s + 1) (by omega)]
    show (st.code ++ _) ++ _ = _
    rw [List.append_assoc]
    congr 1
    have h1 : (s + 1) * 500 = s * 500 + 500 := by ring
    rw [h1, ← List.drop_drop]
    exact List.take_append_drop 500 (code.drop (s * 500))

lemma foldl_chunks_complete (code : List Char) (chunks : Nat)
    (hlast : (chunks - 1) * 500 < code.length)
    (hcover : code.length ≤ chunks * 500) :
    ∀ (n s : Nat), s + n = chunks → 0 < n → ∀ st : ClientStreamState,
      (((List.range' s n).map (chunkAt code chunks)).foldl clientStep st).codeComplete
        = true := by
  intro n
  induction n with
  | zero => intro s hs h0; omega
  | succ n ih =>
    intro s hs _ st
    rw [List.range'_succ, List.map_cons, List.foldl_cons, chunkAt_code,
      clientStep_chunk_nonempty _ _ _ _ _
        (chunk_payload_ne_nil code s chunks hlast (by omega))]
    by_cases hn : n = 0
    · subst hn
      have hs' : s = chunks - 1 := by omega
      simp [hs']
    · exact ih (s + 1) (by omega) (by omega) _

lemma foldl_codeChunkMsgs (code : List Char) (hc : code ≠ []) (st : ClientStreamState) :
    (((codeChunkMsgs code).foldl clientStep st).code = st.code ++ code ∧
     ((codeChunkMsgs code).foldl clientStep st).codeComplete = true) := by
  unfold codeChunkMsgs
  by_cases hbig : code.length > 1000
  · have hc0 : 0 < code.length := by
      cases code with
      | nil => exact absurd rfl hc
      | cons a as => simp
    have hlast : (((code.length + 499) / 500) - 1) * 500 < code.length := by omega
    have hcover : code.length ≤ ((code.length + 499) / 500) * 500 := by omega
    rw [if_pos hbig, List.range_eq_range']
    constructor
    · rw [foldl_chunks_code code _ hlast hcover _ 0 (by omega) st]
      simp
    · exact foldl_chunks_complete code _ hlast hcover _ 0 (by omega) (by omega) st
  · rw [if_neg hbig]
    rw [show ([StreamMsg.codeChunk code true 0 1].foldl clientStep st)
        = clientStep st (StreamMsg.codeChunk code true 0 1) from rfl,
      clientStep_chunk_nonempty _ _ _ _ _ hc]
    exact ⟨rfl, by simp⟩

lemma clientStep_token_code (st : ClientStreamState) (t : List Char) :
    (clientStep st (StreamMsg.token t)).code = st.code ∧
    (clientStep st (StreamMsg.token t)).codeComplete = st.codeComplete := by
  by_cases ht : t.isEmpty <;> simp [clientStep, ht]

lemma foldl_tokens_code (ts : List StreamMsg) (hts : ∀ m ∈ ts, isTokenMsg m = true)
    (st : ClientStreamState) :
    ((ts.foldl clientStep st).code = st.code ∧
     (ts.foldl clientStep st).codeComplete = st.codeComplete) := by
  induction ts generalizing st with
  | nil => exact ⟨rfl, rfl⟩
  | cons m rest ih =>
    have hm := hts m (List.mem_cons_self m rest)
    rcases m with _ | t | ⟨c, l, i, tc⟩ | e | _ <;> simp [isTokenMsg] at hm
    have h1 := clientStep_token_code st t
    have h2 := ih (fun x hx => hts x (List.mem_cons_of_mem _ hx)) (clientStep st (.token t))
    exact ⟨h2.1.trans h1.1, h2.2.trans h1.2⟩

lemma foldl_wWrite_open (l : List StreamMsg) (msgs : List StreamMsg) :
    l.foldl (fun st m => wWrite m st) { msgs := msgs, closed := false } =
      { msgs := msgs ++ l, closed := false } := by
  induction l generalizing msgs with
  | nil => simp
  | cons m rest ih =>
    rw [List.foldl_cons]
    show rest.foldl _ (wWrite m { msgs := msgs, closed := false }) = _
    rw [show wWrite m { msgs := msgs, closed := false }
        = { msgs := msgs ++ [m], closed := false } from rfl, ih]
    simp

lemma tokenMsgs_tokens (r : SketchToCodeOutput) :
    ∀ m ∈ tokenMsgs r, isTokenMsg m = true := by
  intro m hm
  unfold tokenMsgs at hm
  by_cases h : r.designToken.isEmpty <;> simp [h] at hm
  rw [hm]
  rfl

lemma clientProcess_pre_chunks (pre : List StreamMsg)
    (hpre : ∀ m ∈ pre, isTokenMsg m = true) (code : List Char) (hc : code ≠ []) :
    clientProcessStream
        (StreamMsg.start :: (pre ++ (codeChunkMsgs code ++ [StreamMsg.successMsg])))
      = ClientStreamResult.completed code := by
  have hP := foldl_tokens_code pre hpre clientStreamInit
  have hC := foldl_codeChunkMsgs code hc (pre.foldl clientStep clientStreamInit)
  unfold clientProcessStream
  simp only [List.foldl_cons, List.foldl_append, List.foldl_nil,
    show clientStep clientStreamInit StreamMsg.start = clientStreamInit from rfl]
  simp only [show ∀ st : ClientStreamState,
      clientStep st StreamMsg.successMsg = { st with codeComplete := true } from fun _ => rfl]
  simp only [hC.1, hP.1]
  simp [clientStreamInit]

/-- C3: for any error-free generation with non-blank code, the client's
concatenation of the streamed code fragments in arrival order reproduces
exactly the `code` field of the single-response JSON body for the same
result — and the stream is recognised as complete. -/
theorem c3_stream_single_consistency (r : SketchToCodeOutput) (reqId : Option (List Char))
    (fallbackToken : List Char) (he : r.error = none) (hc : jsTrim r.code ≠ []) :
    clientProcessStream (routeStream reqId (AiOutcome.resolved r false)).msgs
      = ClientStreamResult.completed ((nonStreamingBody r fallbackToken).code) ∧
    (nonStreamingBody r fallbackToken).code = r.code := by
  refine ⟨?_, rfl⟩
  have hcode : r.code ≠ [] := by
    intro h0
    exact hc (by rw [h0]; rfl)
  have hc2 : ¬(r.code = [] ∨ jsTrim r.code = []) := fun h => h.elim hcode hc
  show clientProcessStream (routeStream reqId (AiOutcome.resolved r false)).msgs
    = ClientStreamResult.completed r.code
  obtain ⟨rcode, rerr, rtok⟩ := r
  cases he
  cases reqId with
  | none =>
    have hmsgs : (routeStream none
          (AiOutcome.resolved ⟨rcode, none, rtok⟩ false)).msgs =
        StreamMsg.start :: (tokenMsgs ⟨rcode, none, rtok⟩ ++
          (codeChunkMsgs rcode ++ [StreamMsg.successMsg])) := by
      unfold routeStream
      dsimp only
      rw [if_neg hc2]
      rw [show wWrite StreamMsg.start { msgs := [], closed := false }
          = { msgs := [StreamMsg.start], closed := false } from rfl,
        foldl_wWrite_open, foldl_wWrite_open]
      simp [wWrite, wClose]
    rw [hmsgs]
    exact clientProcess_pre_chunks (tokenMsgs ⟨rcode, none, rtok⟩)
      (tokenMsgs_tokens _) rcode hcode
  | some t =>
    have hmsgs : (routeStream (some t)
          (AiOutcome.resolved ⟨rcode, none, rtok⟩ false)).msgs =
        StreamMsg.start :: ((StreamMsg.token t :: tokenMsgs ⟨rcode, none, rtok⟩) ++
          (codeChunkMsgs rcode ++ [StreamMsg.successMsg])) := by
      unfold routeStream
      dsimp only
      rw [if_neg hc2]
      rw [show wWrite (StreamMsg.token t)
            (wWrite StreamMsg.start { msgs := [], closed := false })
          = { msgs := [StreamMsg.start, StreamMsg.token t], closed := false } from rfl,
        foldl_wWrite_open, foldl_wWrite_open]
      simp [wWrite, wClose]
    rw [hmsgs]
    refine clientProcess_pre_chunks (StreamMsg.token t :: tokenMsgs ⟨rcode, none, rtok⟩)
      ?_ rcode hcode
    intro m hm
    rcases List.mem_cons.mp hm with h | h
    · rw [h]; rfl
    · exact tokenMsgs_tokens _ m h

/-- C3 witness: a short error-free result streamed with no request id. -/
theorem c3_stream_single_consistency_witness :
    clientProcessStream (routeStream none (AiOutcome.resolved exampleResult false)).msgs
      = ClientStreamResult.completed
          ((nonStreamingBody exampleResult ("fb".toList)).code) ∧
    (nonStreamingBody exampleResult ("fb".toList)).code = exampleResult.code :=
  c3_stream_single_consistency exampleResult none ("fb".toList) rfl (by decide)

lemma dropWhile_tokens_nil (pre : List StreamMsg)
    (hpre : ∀ m ∈ pre, isTokenMsg m = true) :
    pre.dropWhile isTokenMsg = [] := by
  induction pre with
  | nil => rfl
  | cons m rest ih =>
    rw [List.dropWhile_cons, if_pos (hpre m (List.mem_cons_self m rest))]
    exact ih (fun x hx => hpre x (List.mem_cons_of_mem _ hx))

lemma dropWhile_tokens_append (pre xs : List StreamMsg)
    (hpre : ∀ m ∈ pre, isTokenMsg m = true) :
    (pre ++ xs).dropWhile isTokenMsg = xs.dropWhile isTokenMsg := by
  rw [List.dropWhile_append, dropWhile_tokens_nil pre hpre]
  simp

lemma checkFrags_range' (code : List Char) (chunks : Nat)
    (hlast : (chunks - 1) * 500 < code.length) :
    ∀ (n s : Nat), s + n = chunks →
      checkFrags chunks s
        (((List.range' s n).map (chunkAt code chunks)) ++ [StreamMsg.successMsg]) = true := by
  intro n
  induction n with
  | zero =>
    intro s hs
    have hs' : s = chunks := by omega
    subst hs'
    simp [checkFrags]
  | succ n ih =>
    intro s hs
    rw [List.range'_succ, List.map_cons, List.cons_append, chunkAt_code]
    have hrec := ih (s + 1) (by omega)
    have hslt : s < chunks := by omega
    simp [checkFrags, hrec, hslt]

lemma streamShapeOk_error (pre : List StreamMsg)
    (hpre : ∀ m ∈ pre, isTokenMsg m = true) (e : List Char) :
    streamShapeOk (StreamMsg.start :: (pre ++ [StreamMsg.errorMsg e])) = true := by
  unfold streamShapeOk
  dsimp only
  rw [dropWhile_tokens_append pre _ hpre]
  rfl

lemma streamShapeOk_chunks (pre : List StreamMsg)
    (hpre : ∀ m ∈ pre, isTokenMsg m = true) (code : List Char) (hc : code ≠ []) :
    streamShapeOk
        (StreamMsg.start :: (pre ++ (codeChunkMsgs code ++ [StreamMsg.successMsg]))) = true := by
  unfold streamShapeOk
  dsimp only
  rw [dropWhile_tokens_append pre _ hpre]
  by_cases hbig : code.length > 1000
  · have hc0 : 0 < code.length := List.length_pos.mpr hc
    have hlast : (((code.length + 499) / 500) - 1) * 500 < code.length := by omega
    obtain ⟨k, hk⟩ : ∃ k, (code.length + 499) / 500 = k + 1 :=
      ⟨(code.length + 499) / 500 - 1, by omega⟩
    have hmain := checkFrags_range' code ((code.length + 499) / 500) hlast
      ((code.length + 499) / 500) 0 (by omega)
    rw [hk] at hmain
    rw [List.range'_succ, List.map_cons, List.cons_append, chunkAt_code] at hmain
    unfold codeChunkMsgs
    rw [if_pos hbig, List.range_eq_range', hk, List.range'_succ, List.map_cons,
      List.cons_append, chunkAt_code]
    exact hmain
  · unfold codeChunkMsgs
    rw [if_neg hbig]
    rfl

lemma routeStream_eq (reqId : Option (List Char)) (outcome : AiOutcome) :
    routeStream reqId outcome =
      { msgs := StreamMsg.start :: (reqTokList reqId ++ routeBody outcome),
        closed := true } := by
  have hw : ∀ (m : StreamMsg) (msgs : List StreamMsg),
      wWrite m { msgs := msgs, closed := false }
        = { msgs := msgs ++ [m], closed := false } := fun _ _ => rfl
  rcases outcome with ⟨r, after⟩ | ⟨m, after⟩ <;> cases after <;> cases reqId <;>
    · unfold routeStream routeBody reqTokList
      dsimp only
      split_ifs <;>
        (try simp only [show ({ msgs := [], closed := false } : WriterState)
            = { msgs := ([] : List StreamMsg), closed := false } from rfl,
          hw, foldl_wWrite_open]) <;>
        simp_all [wWrite, wClose]

/-- C10: every streaming response of the generate route is well-formed —
the start marker comes first, every token announcement precedes any code
fragment or error, the body is either one error message or the ascending
fully-tagged fragment run followed by one success marker, and the writer
ends closed on every path. -/
theorem c10_stream_invariant (reqId : Option (List Char)) (outcome : AiOutcome) :
    streamShapeOk (routeStream reqId outcome).msgs = true ∧
    (routeStream reqId outcome).closed = true := by
  rw [routeStream_eq]
  refine ⟨?_, rfl⟩
  have hpreTok : ∀ m ∈ reqTokList reqId, isTokenMsg m = true := by
    cases reqId <;> simp [reqTokList, isTokenMsg]
  rcases outcome with ⟨r, after⟩ | ⟨m, after⟩
  · cases after
    · show streamShapeOk (StreamMsg.start :: (reqTokList reqId ++
        (if r.error.isSome then tokenMsgs r ++ [.errorMsg (r.error.getD [])]
         else if r.code = [] ∨ jsTrim r.code = [] then tokenMsgs r ++ [.errorMsg noCodeMsg]
         else tokenMsgs r ++ (codeChunkMsgs r.code ++ [.successMsg])))) = true
      have hcat : ∀ x ∈ reqTokList reqId ++ tokenMsgs r, isTokenMsg x = true := by
        intro x hx
        rcases List.mem_append.mp hx with h | h
        exacts [hpreTok x h, tokenMsgs_tokens r x h]
      by_cases h1 : r.error.isSome
      · rw [if_pos h1, ← List.append_assoc]
        exact streamShapeOk_error _ hcat _
      · rw [if_neg h1]
        by_cases h2 : r.code = [] ∨ jsTrim r.code = []
        · rw [if_pos h2, ← List.append_assoc]
          exact streamShapeOk_error _ hcat _
        · rw [if_neg h2, ← List.append_assoc]
          exact streamShapeOk_chunks _ hcat r.code (fun h => h2 (Or.inl h))
    · exact streamShapeOk_error (reqTokList reqId) hpreTok _
  · cases after
    · exact streamShapeOk_error (reqTokList reqId) hpreTok _
    · exact streamShapeOk_error (reqTokList reqId) hpreTok _

end DevSketch
